import Mathlib

/-!
Verification of the `brijr/wp-poster` field-mapping utility (`src/app.py`).

Python strings are modelled as `List Char` (`PyStr`); Python exceptions as an
explicit `PyError` sum propagated through `Except`; the network as an oracle
passed in as a function argument; the file system as a partial map from path
to contents.  Library calls made by the source (`urllib.parse`, `json`,
`re.sub` on the ASCII fragment, `requests` raising behaviour) are modelled
from their CPython 3.11.6 reference implementations, restricted to the
fragments the program exercises; each restriction is noted at its
definition.
-/

set_option maxRecDepth 10000

/-- Python strings, modelled as lists of Unicode scalar values.  (CPython
`str` can additionally hold lone surrogates; the program never constructs
those, and the model treats them as out of range.) -/
abbrev PyStr := List Char

/-- Python exception classes distinguished by the program
(`ValueError` from `urllib.parse`, `KeyError` from a pandas row lookup,
`FileNotFoundError` from `open`, `json.JSONDecodeError` from `json.load`). -/
inductive PyError where
  | valueError
  | keyError
  | fileNotFound
  | jsonDecode
  deriving DecidableEq, Repr

deriving instance DecidableEq for Except

/-! ## URL normalizer (`normalize_url`, src/app.py lines 15-20)

The source calls `urllib.parse.urlparse` / `urlunparse`.  These are modelled
from the CPython 3.11.6 `Lib/urllib/parse.py`: strip of leading WHATWG C0
control or space characters, removal of the unsafe bytes tab/CR/LF, scheme
detection at the first colon guarded by an ASCII-letter first character,
netloc extraction after a leading `//` with the mismatched-IPv6-bracket
`ValueError` and the bracketed-host validation, then fragment, query and
params splitting; `urlunsplit` re-inserts `//` for schemes in
`uses_netloc`. -/

/-- The scheme characters of `urllib.parse.scheme_chars`:
ASCII letters, digits, `+`, `-`, `.`. -/
def isSchemeChar (c : Char) : Bool :=
  ('a' ≤ c && c ≤ 'z') || ('A' ≤ c && c ≤ 'Z') || ('0' ≤ c && c ≤ '9') ||
    c == '+' || c == '-' || c == '.'

/-- Test `url[0].isascii() and url[0].isalpha()`: an ASCII letter. -/
def isAsciiAlpha (c : Char) : Bool :=
  ('a' ≤ c && c ≤ 'z') || ('A' ≤ c && c ≤ 'Z')

/-- ASCII digit. -/
def isAsciiDigit (c : Char) : Bool := '0' ≤ c && c ≤ '9'

/-- Hexadecimal digit as accepted by `ipaddress` (`_HEX_DIGITS`) and by the
IPvFuture regex character class `[a-fA-F0-9]`. -/
def isHexDigitPy (c : Char) : Bool :=
  isAsciiDigit c || ('a' ≤ c && c ≤ 'f') || ('A' ≤ c && c ≤ 'F')

/-- Characters of `_WHATWG_C0_CONTROL_OR_SPACE` (code points 0x00-0x20),
stripped from the front of the URL by `urlsplit`. -/
def isC0ControlOrSpace (c : Char) : Bool := c.toNat ≤ 0x20

/-- The bytes removed from a URL before parsing
(`_UNSAFE_URL_BYTES_TO_REMOVE` = tab, CR, LF; the three sequential
`str.replace` calls amount to one filter). -/
def isTabCrLf (c : Char) : Bool := c == '\t' || c == '\r' || c == '\n'

/-- Model of `url.lstrip(_WHATWG_C0_CONTROL_OR_SPACE)` and the tab/CR/LF removal:
the URL cleaning performed at the top of `urlsplit`. -/
def cleanUrl (s : PyStr) : PyStr :=
  (s.dropWhile isC0ControlOrSpace).filter (fun c => !isTabCrLf c)

/-- ASCII lowercasing; `str.lower` as applied by `urlsplit` to a detected
scheme, which consists of `scheme_chars` only, so the ASCII fragment is
exact there. -/
def lowerAscii (s : PyStr) : PyStr :=
  s.map (fun c => if 'A' ≤ c && c ≤ 'Z' then Char.ofNat (c.toNat + 32) else c)

/-- Characters ending the netloc in `_splitnetloc`: `/`, `?`, `#`. -/
def isNetlocDelim (c : Char) : Bool := c == '/' || c == '?' || c == '#'

/-- Python `url.split(c, 1)` when `c` occurs, and `(url, "")` when it does
not — exactly the effect of the guarded splits in `urlsplit`; also
`str.partition(c)` projected to the pieces before and after the
separator. -/
def pySplit1 (c : Char) (l : PyStr) : PyStr × PyStr :=
  (l.takeWhile (fun a => a != c), (l.dropWhile (fun a => a != c)).tail)

/-- Scheme detection of CPython 3.11 `urlsplit`: `i = url.find(':')`; when
`i > 0`, the first character is an ASCII letter and every character before
the colon is a scheme character, the scheme is split off and lowercased,
else the scheme is empty and the URL unchanged. -/
def schemeSplit (url : PyStr) : PyStr × PyStr :=
  if ':' ∈ url ∧ url.takeWhile (fun a => a != ':') ≠ [] ∧
      (url.head?.map isAsciiAlpha = some true) ∧
      (url.takeWhile (fun a => a != ':')).all isSchemeChar then
    (lowerAscii (url.takeWhile (fun a => a != ':')), (url.dropWhile (fun a => a != ':')).tail)
  else ([], url)

/-- Python `str.split(sep)` for a one-character separator: all pieces,
empties kept. -/
def splitOn (c : Char) : PyStr → List PyStr
  | [] => [[]]
  | a :: rest =>
    match splitOn c rest with
    | [] => [[a]]
    | h :: t => if a = c then [] :: h :: t else (a :: h) :: t

/-- Model of `ipaddress.IPv4Address._parse_octet` (CPython 3.11): ASCII digits only,
at most three characters, no leading zero except for `"0"` itself, value at
most 255. -/
def ipv4OctetOk (s : PyStr) : Bool :=
  s ≠ [] && s.all isAsciiDigit && s.length ≤ 3 &&
    !(s.length > 1 && s.head? == some '0') &&
    s.foldl (fun a c => a * 10 + (c.toNat - 48)) 0 ≤ 255

/-- Model of `ipaddress.IPv4Address` validity: no `/`, four dot-separated valid
octets. -/
def ipv4AddressOk (s : PyStr) : Bool :=
  '/' ∉ s &&
    match splitOn '.' s with
    | [a, b, c, d] => ipv4OctetOk a && ipv4OctetOk b && ipv4OctetOk c && ipv4OctetOk d
    | _ => false

/-- Model of `ipaddress._parse_hextet` validity: non-empty, hex digits only, at most
four characters. -/
def hextetOk (s : PyStr) : Bool := s ≠ [] && s.all isHexDigitPy && s.length ≤ 4

/-- Validity of the body of an IPv6 address
(`ipaddress.IPv6Address._ip_int_from_string`, CPython 3.11): colon-split
parts, optional embedded IPv4 in the last part, at most one `::` run, the
usual count bookkeeping. -/
def ipv6BodyOk (s : PyStr) : Bool :=
  if s = [] then false
  else
    let parts0 := splitOn ':' s
    if parts0.length < 3 then false
    else
      let lastPart := (parts0.getLast?).getD []
      let embed := '.' ∈ lastPart
      if embed && !ipv4AddressOk lastPart then false
      else
        -- an embedded IPv4 contributes two synthetic hextets (always valid)
        let parts := if embed then parts0.dropLast ++ [['0'], ['0']] else parts0
        if parts.length > 9 then false
        else
          let n := parts.length
          let innerEmpties := (List.range n).filter
            (fun i => 0 < i ∧ i < n - 1 ∧ parts.getD i ['x'] = [])
          match innerEmpties with
          | [] =>
            -- no '::''; exactly eight parts, none empty at the ends, all hextets
            n == 8 && parts.getD 0 [] ≠ [] && parts.getD (n - 1) [] ≠ [] &&
              parts.all hextetOk
          | [skip] =>
            let hi0 := skip
            let lo0 := n - skip - 1
            let firstEmpty := parts.getD 0 ['x'] = []
            let lastEmpty := parts.getD (n - 1) ['x'] = []
            if firstEmpty && hi0 - 1 ≠ 0 then false
            else if lastEmpty && lo0 - 1 ≠ 0 then false
            else
              let hi := if firstEmpty then hi0 - 1 else hi0
              let lo := if lastEmpty then lo0 - 1 else lo0
              if 8 - (hi + lo) < 1 ∨ hi + lo > 8 then false
              else
                ((List.range hi).all (fun i => hextetOk (parts.getD i []))) &&
                  ((List.range lo).all (fun i => hextetOk (parts.getD (n - 1 - i) [])))
          | _ => false

/-- Model of `ipaddress.IPv6Address` validity: no `/`, optional `%scope` (non-empty,
no further `%`), valid address body. -/
def ipv6AddressOk (s : PyStr) : Bool :=
  '/' ∉ s &&
    (if '%' ∈ s then
      let p := pySplit1 '%' s
      p.2 ≠ [] && '%' ∉ p.2 && ipv6BodyOk p.1
    else ipv6BodyOk s)

/-- The IPvFuture test of `_check_bracketed_host`: regex
`\Av[a-fA-F0-9]+\..+\Z` (the dot of `.+` does not match a newline). -/
def ipvFutureOk (host : PyStr) : Bool :=
  match host with
  | 'v' :: rest =>
    let run := rest.takeWhile isHexDigitPy
    let afterRun := rest.drop run.length
    run ≠ [] &&
      (match afterRun with
       | '.' :: tail => tail ≠ [] && '\n' ∉ tail
       | _ => false)
  | _ => false

/-- Model of `urllib.parse._check_bracketed_host` (CPython 3.11): a host starting
with `v` must be an IPvFuture address; otherwise it must be a valid IPv6
address (`ipaddress.ip_address` parses IPv4 first, and an IPv4 address in
brackets is rejected). -/
def bracketedHostOk (host : PyStr) : Bool :=
  if host.head? = some 'v' then ipvFutureOk host
  else if ipv4AddressOk host then false
  else ipv6AddressOk host

/-- Mismatched-bracket test of `urlsplit` that raises
`ValueError("Invalid IPv6 URL")`. -/
def badBrackets (netloc : PyStr) : Bool :=
  ('[' ∈ netloc && ']' ∉ netloc) || (']' ∈ netloc && '[' ∉ netloc)

/-- Result of `urllib.parse.urlsplit`. -/
structure SplitResult where
  scheme : PyStr
  netloc : PyStr
  path : PyStr
  query : PyStr
  fragment : PyStr
  deriving DecidableEq, Repr

/-- The fragment and query splits at the end of `urlsplit`
(`if '#' in url: url, fragment = url.split('#', 1)`, then the same for
`?`), packaged with the already-computed scheme and netloc.
(`_checknetloc`, which rejects certain non-ASCII netlocs whose NFKC
normalization introduces separator characters, is a no-op on every ASCII
netloc and is not modelled: it depends on the full Unicode NFKC tables.) -/
def splitFragQuery (scheme netloc url3 : PyStr) : SplitResult :=
  let fq := pySplit1 '#' url3
  let pq := pySplit1 '?' fq.1
  ⟨scheme, netloc, pq.1, pq.2, fq.2⟩

/-- The netloc phase of `urlsplit` on the remainder after a leading `//`:
split the netloc at the first `/`, `?` or `#`; raise `ValueError` on
mismatched brackets or on a bracketed host that fails
`_check_bracketed_host`; then split fragment and query. -/
def netlocPhase (scheme rest : PyStr) : Except PyError SplitResult :=
  if badBrackets (rest.takeWhile (fun c => !isNetlocDelim c)) then .error .valueError
  else if '[' ∈ rest.takeWhile (fun c => !isNetlocDelim c) ∧
      ']' ∈ rest.takeWhile (fun c => !isNetlocDelim c) ∧
      !bracketedHostOk
        ((pySplit1 '[' (rest.takeWhile (fun c => !isNetlocDelim c))).2.takeWhile
          (fun a => a != ']')) then
    .error .valueError
  else
    .ok (splitFragQuery scheme (rest.takeWhile (fun c => !isNetlocDelim c))
      (rest.dropWhile (fun c => !isNetlocDelim c)))

/-- CPython 3.11.6 `urllib.parse.urlsplit` with default arguments: clean
the URL, detect a scheme, and when the remainder starts with `//` run the
netloc phase, else split fragment and query directly. -/
def urlsplitE (url0 : PyStr) : Except PyError SplitResult :=
  if (schemeSplit (cleanUrl url0)).2.take 2 = ['/', '/'] then
    netlocPhase (schemeSplit (cleanUrl url0)).1 ((schemeSplit (cleanUrl url0)).2.drop 2)
  else .ok (splitFragQuery (schemeSplit (cleanUrl url0)).1 [] (schemeSplit (cleanUrl url0)).2)

/-- Result of `urllib.parse.urlparse`. -/
structure ParseResult where
  scheme : PyStr
  netloc : PyStr
  path : PyStr
  params : PyStr
  query : PyStr
  fragment : PyStr
  deriving DecidableEq, Repr

/-- Model of `urllib.parse._splitparams`: when the path contains a `/`, look for a
`;` from the last `/` on; otherwise from the start; no `;` found means no
params. -/
def splitParams (path : PyStr) : PyStr × PyStr :=
  if ';' ∈ path then
    if '/' ∈ path then
      if ';' ∈ (pySplit1 '/' path.reverse).1.reverse then
        ((pySplit1 '/' path.reverse).2.reverse ++
           '/' :: (pySplit1 ';' (pySplit1 '/' path.reverse).1.reverse).1,
         (pySplit1 ';' (pySplit1 '/' path.reverse).1.reverse).2)
      else (path, [])
    else ((pySplit1 ';' path).1, (pySplit1 ';' path).2)
  else (path, [])

/-- CPython 3.11.6 `urllib.parse.urlparse` with default arguments:
`urlsplit` followed by the params split. -/
def urlparseE (url : PyStr) : Except PyError ParseResult :=
  (urlsplitE url).map fun r =>
    ⟨r.scheme, r.netloc, (splitParams r.path).1, (splitParams r.path).2,
     r.query, r.fragment⟩

/-- The `uses_netloc` scheme list of CPython 3.11.6 `urllib.parse`. -/
def usesNetloc : List PyStr :=
  ["", "ftp", "http", "gopher", "nntp", "telnet", "imap", "wais", "file",
   "mms", "https", "shttp", "snews", "prospero", "rtsp", "rtsps", "rtspu",
   "rsync", "svn", "svn+ssh", "sftp", "nfs", "git", "git+ssh", "ws",
   "wss"].map String.toList

/-- The `//` re-attachment of `urlunsplit`: insert `//netloc` when a
netloc is present, or when the scheme uses a netloc and the path does not
already begin with `//` (a non-empty relative path gains a leading `/`). -/
def urlunsplitBody (netloc scheme url : PyStr) : PyStr :=
  if netloc ≠ [] ∨ (scheme ≠ [] ∧ scheme ∈ usesNetloc ∧ url.take 2 ≠ ['/', '/']) then
    '/' :: '/' :: (netloc ++ (if url ≠ [] ∧ url.head? ≠ some '/' then '/' :: url else url))
  else url

/-- CPython 3.11.6 `urllib.parse.urlunsplit`, after the `//` re-attachment:
prepend `scheme:` when a scheme is present, then append `?query` and
`#fragment` when non-empty (the two sequential appends of the source are
one associative append). -/
def urlunsplit (r : SplitResult) : PyStr :=
  (if r.scheme ≠ [] then r.scheme ++ ':' :: urlunsplitBody r.netloc r.scheme r.path
   else urlunsplitBody r.netloc r.scheme r.path)
  ++ (if r.query ≠ [] then '?' :: r.query else [])
  ++ (if r.fragment ≠ [] then '#' :: r.fragment else [])

/-- CPython `urllib.parse.urlunparse`: re-join `path;params` and call
`urlunsplit`. -/
def urlunparse (p : ParseResult) : PyStr :=
  urlunsplit ⟨p.scheme, p.netloc,
    (if p.params ≠ [] then p.path ++ ';' :: p.params else p.path),
    p.query, p.fragment⟩

/-- The literal scheme `"https"` substituted by `normalize_url`. -/
def httpsL : PyStr := ['h', 't', 't', 'p', 's']

/-- Model of `normalize_url` (src/app.py lines 15-20): parse the URL; if the parsed
scheme is empty, rebuild it with scheme `https`; otherwise return the input
unchanged.  A `ValueError` raised by `urlparse` propagates. -/
def normalize_url (url : PyStr) : Except PyError PyStr :=
  match urlparseE url with
  | .error e => .error e
  | .ok p => if p.scheme = [] then .ok (urlunparse { p with scheme := httpsL }) else .ok url

/-! ## Slug sanitizer (`sanitize_slug`, src/app.py lines 106-114) -/

/-- Python regex `\w` on the ASCII fragment: letters, digits, underscore.
(The program's slugs are ASCII; the Unicode extension of `\w` is not
modelled.) -/
def isWordChar (c : Char) : Bool :=
  ('a' ≤ c && c ≤ 'z') || ('A' ≤ c && c ≤ 'Z') || ('0' ≤ c && c ≤ '9') || c == '_'

/-- Model of `sanitize_slug`: `re.sub(r'[^\w-]', '', slug)`, then `str.lower`, then
`str.replace(' ', '-')` — in that order, as in the source. -/
def sanitize_slug (slug : PyStr) : PyStr :=
  let s1 := slug.filter (fun c => isWordChar c || c == '-')
  let s2 := lowerAscii s1
  s2.map (fun c => if c = ' ' then '-' else c)

/-! ## Schema field extractor (`get_post_type_fields`, src/app.py lines 116-145) -/

/-- The fixed base field list (`basic_fields`) of `get_post_type_fields`. -/
def basic_fields : List PyStr :=
  ["title", "content", "excerpt", "status", "author", "featured_media",
   "categories", "tags", "slug"].map String.toList

/-- The parts of a post-type descriptor read by `get_post_type_fields`:
the key list of `post_type_data.get("schema", {}).get("properties", {})`
(an absent `schema` or `properties` bucket yields the empty list) and the
`rest_base` used to address the sampling request for custom fields. -/
structure PostTypeData where
  schemaProperties : List PyStr
  rest_base : Option PyStr
  deriving DecidableEq, Repr

/-- Model of `get_post_type_fields` (src/app.py lines 116-145): the fixed base
fields, then every schema property key, then — when the guarded
`fetch_acf_fields` call returns instead of raising — the sampled custom
field names; finally `sorted(list(set(fields)))`.  The network-dependent
sampling outcome is the `acfResult` argument (`error` = the call raised
and the `except` branch kept the fields gathered so far).  The `st.write`
debug output is presentation only and is not modelled. -/
def get_post_type_fields (ptd : PostTypeData)
    (acfResult : Except Unit (List PyStr)) : List PyStr :=
  let fields := basic_fields ++ ptd.schemaProperties
  let fields :=
    match acfResult with
    | .ok acf => fields ++ acf
    | .error _ => fields
  List.insertionSort (· ≤ ·) fields.dedup

/-! ## Mapping store (`save_mapping` / `load_mapping`, src/app.py lines 190-196)

`json.dump` / `json.load` are modelled from CPython 3.11
(`json.encoder.py_encode_basestring_ascii`, `json.scanner` /
`py_scanstring` and the object scanner), restricted to the values this
program stores: a JSON object whose keys and values are strings.
(`json.load` also accepts other JSON values, which the mapping files never
contain; the model rejects them.  Two further pathologies are out of the
model's range and rejected: `\uXXXX` escapes denoting lone surrogates,
which CPython turns into lone-surrogate `str` characters, and the
`int(esc, 16)` laxness of `_decode_uXXXX` towards signs and underscores.)
The file system is a partial map from filename to contents. -/

/-- A file system: filename to contents, `none` when the file is absent. -/
abbrev FileSystem := PyStr → Option PyStr

/-- One lowercase hexadecimal digit. -/
def hexDig : Nat → Char
  | 0 => '0' | 1 => '1' | 2 => '2' | 3 => '3' | 4 => '4' | 5 => '5'
  | 6 => '6' | 7 => '7' | 8 => '8' | 9 => '9' | 10 => 'a' | 11 => 'b'
  | 12 => 'c' | 13 => 'd' | 14 => 'e' | _ => 'f'

/-- Four-digit lowercase hex (`'\\u{0:04x}'`) of a value below 0x10000. -/
def hex4 (n : Nat) : PyStr :=
  [hexDig (n / 4096 % 16), hexDig (n / 256 % 16), hexDig (n / 16 % 16), hexDig (n % 16)]

/-- Model of `py_encode_basestring_ascii` applied to one character: printable ASCII
other than quote and backslash passes through; the seven short escapes;
any other code point below 0x10000 as `\uXXXX`; an astral code point as a
surrogate pair. -/
def escapeChar (c : Char) : PyStr :=
  if c = '"' then ['\\', '"']
  else if c = '\\' then ['\\', '\\']
  else if c.toNat = 8 then ['\\', 'b']
  else if c.toNat = 12 then ['\\', 'f']
  else if c.toNat = 10 then ['\\', 'n']
  else if c.toNat = 13 then ['\\', 'r']
  else if c.toNat = 9 then ['\\', 't']
  else if 0x20 ≤ c.toNat ∧ c.toNat ≤ 0x7e then [c]
  else if c.toNat < 0x10000 then '\\' :: 'u' :: hex4 c.toNat
  else
    ('\\' :: 'u' :: hex4 (0xd800 + (c.toNat - 0x10000) / 1024)) ++
      ('\\' :: 'u' :: hex4 (0xdc00 + (c.toNat - 0x10000) % 1024))

/-- JSON serialization of a string: quote, escapes, quote. -/
def jsonDumpString (s : PyStr) : PyStr :=
  '"' :: (s.map escapeChar).flatten ++ ['"']

/-- Pieces joined by a separator (Python `sep.join`). -/
def joinSep (sep : PyStr) : List PyStr → PyStr
  | [] => []
  | [x] => x
  | x :: xs => x ++ sep ++ joinSep sep xs

/-- One `"key": "value"` member with the default `': '` separator. -/
def memberDump (kv : PyStr × PyStr) : PyStr :=
  jsonDumpString kv.1 ++ ':' :: ' ' :: jsonDumpString kv.2

/-- Model of `json.dump` of a `dict[str, str]` with the default separators
`(', ', ': ')` and `ensure_ascii=True`. -/
def jsonDumpDict (m : List (PyStr × PyStr)) : PyStr :=
  '\x7b' :: joinSep [',', ' '] (m.map memberDump) ++ ['\x7d']

/-- Numeric value of one hexadecimal digit, as in `_decode_uXXXX`. -/
def hexVal (c : Char) : Option Nat :=
  if '0' ≤ c ∧ c ≤ '9' then some (c.toNat - 48)
  else if 'a' ≤ c ∧ c ≤ 'f' then some (c.toNat - 87)
  else if 'A' ≤ c ∧ c ≤ 'F' then some (c.toNat - 55)
  else none

/-- Value of a four-hex-digit `\uXXXX` escape. -/
def hex4Val (a b c d : Char) : Option Nat :=
  match hexVal a, hexVal b, hexVal c, hexVal d with
  | some x, some y, some z, some w => some (((x * 16 + y) * 16 + z) * 16 + w)
  | _, _, _, _ => none

/-- The short escapes accepted by `py_scanstring`'s `BACKSLASH` table. -/
def escShort (e : Char) : Option Char :=
  if e = '"' then some '"'
  else if e = '\\' then some '\\'
  else if e = '/' then some '/'
  else if e = 'b' then some (Char.ofNat 8)
  else if e = 'f' then some (Char.ofNat 12)
  else if e = 'n' then some '\n'
  else if e = 'r' then some '\r'
  else if e = 't' then some '\t'
  else none

/-- One `\\uXXXX` lookahead for the low half of a surrogate pair
(`py_scanstring`): the next six characters must be `\\u` and four hex
digits forming a low surrogate; the recombined code point is returned.
CPython instead produces a lone-surrogate `str` character when the
lookahead fails; such characters are outside the model's range and are
rejected. -/
def scanPair (n : Nat) : PyStr → Except PyError (Char × PyStr)
  | b1 :: b2 :: g1 :: g2 :: g3 :: g4 :: r4 =>
    if b1 = '\\' ∧ b2 = 'u' then
      match hex4Val g1 g2 g3 g4 with
      | some m =>
        if 0xdc00 ≤ m ∧ m ≤ 0xdfff then
          .ok (Char.ofNat (0x10000 + ((n - 0xd800) * 1024 + (m - 0xdc00))), r4)
        else .error .jsonDecode   -- lone surrogate: out of the model's range
      | none => .error .jsonDecode
    else .error .jsonDecode       -- lone surrogate: out of the model's range
  | _ => .error .jsonDecode       -- lone surrogate: out of the model's range

/-- A `\\uXXXX` escape (`py_scanstring`): four hex digits; a high
surrogate triggers the pair lookahead; a lone low surrogate is outside the
model's range; anything else is the denoted character. -/
def scanEscU : PyStr → Except PyError (Char × PyStr)
  | h1 :: h2 :: h3 :: h4 :: r3 =>
    match hex4Val h1 h2 h3 h4 with
    | none => .error .jsonDecode
    | some n =>
      if 0xd800 ≤ n ∧ n ≤ 0xdbff then scanPair n r3
      else if 0xdc00 ≤ n ∧ n ≤ 0xdfff then .error .jsonDecode
      else .ok (Char.ofNat n, r3)
  | _ => .error .jsonDecode

/-- The character after a backslash (`py_scanstring`): `u` starts a
`\\uXXXX` escape, otherwise one of the short escapes. -/
def scanEsc : PyStr → Except PyError (Char × PyStr)
  | [] => .error .jsonDecode
  | e :: r2 =>
    if e = 'u' then scanEscU r2
    else
      match escShort e with
      | some c2 => .ok (c2, r2)
      | none => .error .jsonDecode

/-- One scanning step of `py_scanstring` (strict mode), after the opening
quote: the closing quote ends the string (`none`), a backslash starts an
escape, a raw control character is rejected, anything else is literal. -/
def scanStep : PyStr → Except PyError (Option Char × PyStr)
  | [] => .error .jsonDecode
  | c :: r =>
    if c = '"' then .ok (none, r)
    else if c = '\\' then (scanEsc r).map fun p => (some p.1, p.2)
    else if c.toNat < 0x20 then .error .jsonDecode
    else .ok (some c, r)

/-- The scanning loop of `py_scanstring`, driven by a character budget:
each step consumes at least one character, so a budget of the input length
never runs out; the budget makes the recursion structural. -/
def pjGo : Nat → PyStr → Except PyError (PyStr × PyStr)
  | 0, _ => .error .jsonDecode
  | fuel + 1, l =>
    match scanStep l with
    | .error e => .error e
    | .ok (none, r) => .ok ([], r)
    | .ok (some c, r) => (pjGo fuel r).map fun st => (c :: st.1, st.2)

/-- Model of `py_scanstring` (strict mode), entered after the opening quote: decoded
string and the input after the closing quote. -/
def parseJString (l : PyStr) : Except PyError (PyStr × PyStr) := pjGo l.length l

/-- JSON whitespace skip (the `[ \t\n\r]*` regex `_w`). -/
def skipWs (s : PyStr) : PyStr :=
  s.dropWhile (fun c => c == ' ' || c == '\t' || c == '\n' || c == '\r')

/-- The member loop of the object scanner (`json.decoder.JSONObject`),
restricted to string values, driven by a character budget: parse a key
string, `:`, a value string, then either `,` and the next member or the
closing brace; whitespace is skipped between tokens as in the decoder.
Every iteration consumes at least one character, so a budget above the
input length never runs out; the budget makes the recursion structural. -/
def pmGo : Nat → PyStr → Except PyError (List (PyStr × PyStr) × PyStr)
  | 0, _ => .error .jsonDecode
  | fuel + 1, s =>
    match skipWs s with
    | '"' :: r =>
      match parseJString r with
      | .ok (k, r2) =>
        match skipWs r2 with
        | ':' :: r3 =>
          match skipWs r3 with
          | '"' :: r4 =>
            match parseJString r4 with
            | .ok (v, r5) =>
              match skipWs r5 with
              | ',' :: r6 => (pmGo fuel r6).map fun tl => ((k, v) :: tl.1, tl.2)
              | '\x7d' :: r6 => .ok ([(k, v)], r6)
              | _ => .error .jsonDecode
            | .error e => .error e
          | _ => .error .jsonDecode
        | _ => .error .jsonDecode
      | .error e => .error e
    | _ => .error .jsonDecode

/-- The non-empty-object member loop, with a sufficient budget. -/
def parseMembers (s : PyStr) : Except PyError (List (PyStr × PyStr) × PyStr) :=
  pmGo (s.length + 1) s

/-- Insertion into a Python `dict` as performed by `dict(pairs)`: an
existing key keeps its position and takes the new value, a new key is
appended. -/
def dictInsert (d : List (PyStr × PyStr)) (kv : PyStr × PyStr) : List (PyStr × PyStr) :=
  if kv.1 ∈ d.map Prod.fst then
    d.map (fun e => if e.1 = kv.1 then (e.1, kv.2) else e)
  else d ++ [kv]

/-- Model of `dict(pairs)`: left-to-right insertion. -/
def dictOfPairs (ps : List (PyStr × PyStr)) : List (PyStr × PyStr) :=
  ps.foldl dictInsert []

/-- Model of `json.loads` restricted to an object of strings: optional leading
whitespace, the object, optional trailing whitespace and nothing else
(`Extra data` otherwise); the member list becomes a `dict`. -/
def jsonLoadsDict (s : PyStr) : Except PyError (List (PyStr × PyStr)) :=
  match skipWs s with
  | '\x7b' :: r =>
    (match skipWs r with
     | '\x7d' :: r2 => if skipWs r2 = [] then .ok [] else .error .jsonDecode
     | _ =>
       match parseMembers r with
       | .ok (ps, rest) =>
         if skipWs rest = [] then .ok (dictOfPairs ps) else .error .jsonDecode
       | .error e => .error e)
  | _ => .error .jsonDecode

/-- Model of `save_mapping` (src/app.py lines 190-192): `open(filename, 'w')` then
`json.dump(mapping, f)` — the file now holds exactly the serialized
mapping. -/
def save_mapping (fs : FileSystem) (mapping : List (PyStr × PyStr))
    (filename : PyStr) : FileSystem :=
  fun p => if p = filename then some (jsonDumpDict mapping) else fs p

/-- Model of `load_mapping` (src/app.py lines 194-196): `open(filename, 'r')`
raises `FileNotFoundError` when the file is absent; otherwise `json.load`
parses the contents. -/
def load_mapping (fs : FileSystem) (filename : PyStr) :
    Except PyError (List (PyStr × PyStr)) :=
  match fs filename with
  | none => .error .fileNotFound
  | some content => jsonLoadsDict content

/-! ## CMS client (src/app.py lines 22-50)

The credentials accompany every request unchanged; the model folds them
into the HTTP oracle, which maps the requested URL to the outcome of one
authenticated `requests.get`. -/

/-- Outcome of one `requests.get` of the types endpoint, as the
environment determines it: either a `requests.RequestException` raised
during the request (network failure), or a response carrying an HTTP
status and a body; the body is given post-`response.json()` — the decoded
post-type dictionary, or `error` for a body that is not parseable JSON. -/
inductive ReqResult where
  | netError
  | response (status : Nat) (body : Except Unit (List (PyStr × PostTypeData)))

/-- Model of `response.raise_for_status()`: raises `requests.HTTPError` exactly for
status codes 400-599. -/
def raisesForStatus (status : Nat) : Bool := 400 ≤ status && status < 600

/-- Which handler of `fetch_wordpress_post_types` surfaced an error via
`st.error`. -/
inductive Surfaced where
  | remoteError
  | decodeError
  deriving DecidableEq, Repr

/-- The REST path of the types listing. -/
def typesPath : PyStr := "/wp-json/wp/v2/types".toList

/-- Model of `fetch_wordpress_post_types` (src/app.py lines 22-38): normalize the
URL (a `ValueError` propagates), GET the types endpoint, raise for a 4xx
or 5xx status, decode the JSON body.  A raised `RequestException` (network
failure or `HTTPError`) is caught by the first handler, a
`json.JSONDecodeError` by the second; both surface the error and return
the empty dictionary, so the caller proceeds with an empty result.  The
`st.cache_data` memoization is semantics-neutral for a single call and is
not modelled.  Returns (result dictionary, surfaced error if any). -/
def fetch_wordpress_post_types (http : PyStr → ReqResult) (wp_url : PyStr) :
    Except PyError (List (PyStr × PostTypeData) × Option Surfaced) :=
  match normalize_url wp_url with
  | .error e => .error e
  | .ok nu =>
    match http (nu ++ typesPath) with
    | .netError => .ok ([], some .remoteError)
    | .response status body =>
      if raisesForStatus status then .ok ([], some .remoteError)
      else
        match body with
        | .error _ => .ok ([], some .decodeError)
        | .ok d => .ok (d, none)

/-- Model of `validate_wordpress_connection` (src/app.py lines 40-50): same
request; a raised `requests.RequestException` (network failure or 4xx/5xx
`HTTPError`) collapses to `False`, anything else to `True`.  A
`ValueError` raised by `normalize_url` inside the f-string is not a
`RequestException` and propagates. -/
def validate_wordpress_connection (http : PyStr → ReqResult) (wp_url : PyStr) :
    Except PyError Bool :=
  match normalize_url wp_url with
  | .error e => .error e
  | .ok nu =>
    match http (nu ++ typesPath) with
    | .netError => .ok false
    | .response status _ => .ok (!raisesForStatus status)

/-! ## Batch uploader (`process_and_send_data`, src/app.py lines 74-104) -/

/-- One dataset row: column label to cell value.  Column labels are unique
within a dataset; cell values are the strings of the uploaded CSV or
table. -/
abbrev Row := List (PyStr × PyStr)

/-- One create-item payload: destination field to value. -/
abbrev Post := List (PyStr × PyStr)

/-- pandas `row[label]`: the value at a column label; a missing label
raises `KeyError`. -/
def rowGet (row : Row) (label : PyStr) : Option PyStr :=
  match row with
  | [] => none
  | (k, v) :: rest => if k = label then some v else rowGet rest label

/-- The `slug` key. -/
def slugL : PyStr := "slug".toList

/-- The dict comprehension
`{wp_field: row[csv_field] for wp_field, csv_field in field_mapping.items()}`
evaluated left to right; the first missing column raises `KeyError`.  The
mapping is a Python dict, so its keys are unique. -/
def buildEntries (row : Row) : List (PyStr × PyStr) → Except PyError (List (PyStr × PyStr))
  | [] => .ok []
  | (wp, cf) :: rest =>
    match rowGet row cf with
    | none => .error .keyError
    | some v => (buildEntries row rest).map (fun tl => (wp, v) :: tl)

/-- Step `if 'slug' in post: post['slug'] = sanitize_slug(post['slug'])`: under
the dict's unique keys this rewrites the slug entry in place. -/
def applySlug (post : Post) : Post :=
  if slugL ∈ post.map Prod.fst then
    post.map (fun e => if e.1 = slugL then (e.1, sanitize_slug e.2) else e)
  else post

/-- Payload construction for one row (src/app.py lines 84-86). -/
def buildPost (mapping : List (PyStr × PyStr)) (row : Row) : Except PyError Post :=
  (buildEntries row mapping).map applySlug

/-- Total variant of `buildPost`; equal to it whenever every mapped column
is present (the missing-column default is then never read). -/
def buildPostTotal (mapping : List (PyStr × PyStr)) (row : Row) : Post :=
  applySlug (mapping.map (fun p => (p.1, (rowGet row p.2).getD [])))

/-- The row loop of `process_and_send_data` (src/app.py lines 83-102),
from row index `i` on.  The POST outcome per row index is the oracle
`send` (`true` = the request succeeded and `raise_for_status` passed):
build each payload — an uncaught `KeyError` aborts the whole run — then
submit; a submission failure is caught, surfaced and counted, never
stopping the loop.  Returns (success count, error count, payloads
submitted in order).  The progress-bar update and the `st.error` text are
presentation only and are not modelled. -/
def processRows (send : Nat → Bool) (mapping : List (PyStr × PyStr)) :
    Nat → List Row → Except PyError (Nat × Nat × List Post)
  | _, [] => .ok (0, 0, [])
  | i, row :: rest =>
    match buildPost mapping row with
    | .error e => .error e
    | .ok post =>
      match processRows send mapping (i + 1) rest with
      | .error e => .error e
      | .ok (s, f, tr) =>
        if send i then .ok (s + 1, f, post :: tr) else .ok (s, f + 1, post :: tr)

/-- Model of `process_and_send_data` (src/app.py lines 74-104): run the row loop
over the whole dataset and return the final counts (and the payload
trace). -/
def process_and_send_data (send : Nat → Bool) (data : List Row)
    (mapping : List (PyStr × PyStr)) : Except PyError (Nat × Nat × List Post) :=
  processRows send mapping 0 data

/-! ## Helper lemmas -/

theorem buildEntries_ok (row : Row) (mapping : List (PyStr × PyStr))
    (h : ∀ p ∈ mapping, (rowGet row p.2).isSome) :
    buildEntries row mapping = .ok (mapping.map (fun p => (p.1, (rowGet row p.2).getD []))) := by
  induction mapping with
  | nil => rfl
  | cons p rest ih =>
    have hp := h p (by simp)
    cases hv : rowGet row p.2 with
    | none => rw [hv] at hp; simp at hp
    | some v =>
      obtain ⟨wp, cf⟩ := p
      simp only [buildEntries]
      simp only at hv
      rw [hv, ih (fun q hq => h q (by simp [hq]))]
      simp [Except.map, hv]

theorem buildPost_ok (mapping : List (PyStr × PyStr)) (row : Row)
    (h : ∀ p ∈ mapping, (rowGet row p.2).isSome) :
    buildPost mapping row = .ok (buildPostTotal mapping row) := by
  rw [buildPost, buildEntries_ok row mapping h]
  rfl

theorem buildPost_err (mapping : List (PyStr × PyStr)) (row : Row)
    (h : ∃ p ∈ mapping, rowGet row p.2 = none) :
    buildPost mapping row = .error .keyError := by
  rw [buildPost]
  induction mapping with
  | nil => simp at h
  | cons p rest ih =>
    obtain ⟨wp, cf⟩ := p
    rcases h with ⟨q, hq, hnone⟩
    rcases List.mem_cons.1 hq with hq | hq
    · subst hq
      simp only [buildEntries]
      simp only at hnone
      rw [hnone]
      rfl
    · simp only [buildEntries]
      cases hv : rowGet row cf with
      | none => rfl
      | some v =>
        have h2 := ih ⟨q, hq, hnone⟩
        cases hbe : buildEntries row rest with
        | error e =>
          rw [hbe] at h2
          simp [Except.map] at h2
          subst h2
          simp [hbe, Except.map]
        | ok tl =>
          rw [hbe] at h2
          simp [Except.map] at h2

theorem processRows_ok (send : Nat → Bool) (mapping : List (PyStr × PyStr))
    (data : List Row) (k : Nat)
    (h : ∀ row ∈ data, ∀ p ∈ mapping, (rowGet row p.2).isSome) :
    processRows send mapping k data =
      .ok (((List.range' k data.length).filter (fun i => send i)).length,
           ((List.range' k data.length).filter (fun i => !send i)).length,
           data.map (buildPostTotal mapping)) := by
  induction data generalizing k with
  | nil => rfl
  | cons row rest ih =>
    simp only [processRows]
    rw [buildPost_ok mapping row (h row (by simp)),
        ih (k + 1) (fun r hr => h r (by simp [hr]))]
    simp only [List.length_cons, List.range'_succ, List.filter_cons]
    cases hs : send k <;> simp [hs]

theorem filterCountSplit (p : Nat → Bool) (l : List Nat) :
    (l.filter (fun i => p i)).length = l.length - (l.filter (fun i => !p i)).length := by
  induction l with
  | nil => rfl
  | cons a l ih =>
    have hle : (l.filter (fun i => !p i)).length ≤ l.length :=
      List.length_filter_le _ _
    simp only [List.filter_cons]
    cases h : p a <;> simp [ih] <;> omega

/-- Claim C1: with a non-empty field mapping whose source columns are all
present, the batch uploader attempts every row in dataset order, never
stopping early, and returns success = N − |F| and failure = |F| where F is
the set of row indices whose create-item submission fails. -/
theorem claim_C1 (send : Nat → Bool) (data : List Row)
    (mapping : List (PyStr × PyStr)) (_hmap : mapping ≠ [])
    (h : ∀ row ∈ data, ∀ p ∈ mapping, (rowGet row p.2).isSome) :
    process_and_send_data send data mapping =
      .ok (data.length - ((List.range data.length).filter (fun i => !send i)).length,
           ((List.range data.length).filter (fun i => !send i)).length,
           data.map (buildPostTotal mapping)) := by
  rw [process_and_send_data, processRows_ok send mapping data 0 h, List.range_eq_range']
  rw [filterCountSplit]
  simp

/-- Witness for C1 at a concrete three-row dataset where row 1 fails. -/
theorem claim_C1_witness :
    process_and_send_data (fun i => i != 1)
      [[("name".toList, "a".toList)], [("name".toList, "b".toList)], [("name".toList, "c".toList)]]
      [("title".toList, "name".toList)] =
      .ok (2, 1, [[("title".toList, "a".toList)], [("title".toList, "b".toList)], [("title".toList, "c".toList)]]) := by
  have h := claim_C1 (fun i => i != 1)
    [[("name".toList, "a".toList)], [("name".toList, "b".toList)], [("name".toList, "c".toList)]]
    [("title".toList, "name".toList)] (by decide) (by decide)
  rw [h]
  rfl

theorem processRows_err (send : Nat → Bool) (mapping : List (PyStr × PyStr))
    (data : List Row) (k : Nat)
    (h : ∃ row ∈ data, ∃ p ∈ mapping, rowGet row p.2 = none) :
    processRows send mapping k data = .error .keyError := by
  induction data generalizing k with
  | nil => simp at h
  | cons row rest ih =>
    simp only [processRows]
    by_cases hrow : ∃ p ∈ mapping, rowGet row p.2 = none
    · rw [buildPost_err mapping row hrow]
    · have hall : ∀ p ∈ mapping, (rowGet row p.2).isSome := by
        intro p hp
        cases hv : rowGet row p.2 with
        | none => exact absurd ⟨p, hp, hv⟩ hrow
        | some v => simp
      rw [buildPost_ok mapping row hall]
      rcases h with ⟨r, hr, hbad⟩
      rcases List.mem_cons.1 hr with rfl | hr
      · exact absurd hbad hrow
      · rw [ih (k + 1) ⟨r, hr, hbad⟩]

/-- Claim C9: when the field mapping names a source column missing from
some row, the batch uploader raises an uncaught `KeyError` while building
that row's payload and terminates without returning counts (row isolation
holds only for submission failures). -/
theorem claim_C9 (send : Nat → Bool) (data : List Row)
    (mapping : List (PyStr × PyStr))
    (h : ∃ row ∈ data, ∃ p ∈ mapping, rowGet row p.2 = none) :
    process_and_send_data send data mapping = .error .keyError :=
  processRows_err send mapping data 0 h

/-- Witness for C9: a stale mapping naming the absent column `name2`
aborts the run even though every submission would succeed. -/
theorem claim_C9_witness :
    process_and_send_data (fun _ => true)
      [[("name".toList, "a".toList)]] [("title".toList, "name2".toList)] =
      .error .keyError :=
  claim_C9 (fun _ => true) [[("name".toList, "a".toList)]]
    [("title".toList, "name2".toList)] (by decide)

/-- Claim C3: `sanitize_slug "My Slug!!"` = `"myslug"` — the space and the
exclamation marks are removed by the non-word-character strip before the
space-to-hyphen replacement can see them, and the result is lowercased. -/
theorem claim_C3 : sanitize_slug "My Slug!!".toList = "myslug".toList := by decide

theorem sortedDedup_spec (l : List PyStr) :
    (List.insertionSort (· ≤ ·) l.dedup).Nodup ∧
    List.Sorted (· ≤ ·) (List.insertionSort (· ≤ ·) l.dedup) ∧
    ∀ x, x ∈ l → x ∈ List.insertionSort (· ≤ ·) l.dedup :=
  ⟨(List.perm_insertionSort _ _).symm.nodup (List.nodup_dedup l),
   List.sorted_insertionSort _ _,
   fun _ hx => (List.perm_insertionSort _ _).mem_iff.2 (List.mem_dedup.2 hx)⟩

/-- Claim C4: for every post-type descriptor and every sampling outcome,
the extracted field list has no duplicates, is sorted lexicographically,
and contains every fixed base field. -/
theorem claim_C4 (ptd : PostTypeData) (acfResult : Except Unit (List PyStr)) :
    (get_post_type_fields ptd acfResult).Nodup ∧
    List.Sorted (· ≤ ·) (get_post_type_fields ptd acfResult) ∧
    ∀ f ∈ basic_fields, f ∈ get_post_type_fields ptd acfResult := by
  unfold get_post_type_fields
  cases acfResult with
  | ok acf =>
    exact ⟨(sortedDedup_spec _).1, (sortedDedup_spec _).2.1,
      fun f hf => (sortedDedup_spec _).2.2 f (by simp [hf])⟩
  | error e =>
    exact ⟨(sortedDedup_spec _).1, (sortedDedup_spec _).2.1,
      fun f hf => (sortedDedup_spec _).2.2 f (by simp [hf])⟩

/-- Witness for C4 at a concrete schema (one custom property, one sampled
field). -/
theorem claim_C4_witness :
    (get_post_type_fields ⟨["zeta".toList], some "posts".toList⟩
        (.ok ["acf_a".toList])).Nodup ∧
    List.Sorted (· ≤ ·)
      (get_post_type_fields ⟨["zeta".toList], some "posts".toList⟩
        (.ok ["acf_a".toList])) ∧
    ∀ f ∈ basic_fields,
      f ∈ get_post_type_fields ⟨["zeta".toList], some "posts".toList⟩
        (.ok ["acf_a".toList]) :=
  claim_C4 ⟨["zeta".toList], some "posts".toList⟩ (.ok ["acf_a".toList])

/-- Claim C6: loading the mapping from a path with no file signals
`FileNotFoundError`, never a decode error. -/
theorem claim_C6 (fs : FileSystem) (path : PyStr) (h : fs path = none) :
    load_mapping fs path = .error .fileNotFound ∧
    load_mapping fs path ≠ .error .jsonDecode := by
  have hload : load_mapping fs path = .error .fileNotFound := by
    unfold load_mapping
    rw [h]
  exact ⟨hload, by rw [hload]; simp⟩

/-- Witness for C6 on the empty file system. -/
theorem claim_C6_witness :
    load_mapping (fun _ => none) "mapping.json".toList = .error .fileNotFound ∧
    load_mapping (fun _ => none) "mapping.json".toList ≠ .error .jsonDecode :=
  claim_C6 (fun _ => none) "mapping.json".toList rfl

/-- Counterexample to claim C7 as stated: a 300 response (which `requests`
does not follow as a redirect) is not 2xx, yet `raise_for_status` raises
only for 400-599, so with a parseable body the call surfaces no error at
all and returns a non-empty dictionary. -/
theorem claim_C7_counterexample :
    fetch_wordpress_post_types
        (fun _ => .response 300 (.ok [("post".toList, ⟨[], none⟩)]))
        "http://site.test".toList =
      .ok ([("post".toList, ⟨[], none⟩)], none) ∧
    ([("post".toList, (⟨[], none⟩ : PostTypeData))] : List (PyStr × PostTypeData)) ≠ [] := by
  constructor
  · rfl
  · simp

/-- Claim C7 as amended: a raised request or a 4xx/5xx status surfaces a
remote error, a non-raising status with an unparseable body surfaces a
decode error; both return the empty dictionary so the caller continues
degraded. -/
theorem claim_C7 (http : PyStr → ReqResult) (url nu : PyStr)
    (hn : normalize_url url = .ok nu) :
    (http (nu ++ typesPath) = .netError →
      fetch_wordpress_post_types http url = .ok ([], some .remoteError)) ∧
    (∀ s b, http (nu ++ typesPath) = .response s b → 400 ≤ s → s < 600 →
      fetch_wordpress_post_types http url = .ok ([], some .remoteError)) ∧
    (∀ s, http (nu ++ typesPath) = .response s (.error ()) → ¬(400 ≤ s ∧ s < 600) →
      fetch_wordpress_post_types http url = .ok ([], some .decodeError)) := by
  unfold fetch_wordpress_post_types
  rw [hn]
  simp only []
  refine ⟨fun hh => by rw [hh], fun s b hh h4 h6 => ?_, fun s hh hns => ?_⟩
  · rw [hh]
    have : raisesForStatus s = true := by simp [raisesForStatus]; omega
    simp [this]
  · rw [hh]
    have : raisesForStatus s = false := by
      simp [raisesForStatus]
      omega
    simp [this]

/-- Witness for the amended C7: a network failure on a well-formed URL
yields the empty dictionary and a surfaced remote error. -/
theorem claim_C7_witness :
    normalize_url "http://site.test".toList = .ok "http://site.test".toList ∧
    fetch_wordpress_post_types (fun _ => .netError) "http://site.test".toList =
      .ok ([], some .remoteError) :=
  ⟨by rfl,
   (claim_C7 (fun _ => .netError) "http://site.test".toList
      "http://site.test".toList (by rfl)).1 rfl⟩

/-- Counterexample to claim C8 as stated: a 300 status is not 2xx yet
validates as `true`, and a URL with an invalid bracketed netloc makes the
call raise `ValueError` instead of returning a boolean. -/
theorem claim_C8_counterexample :
    validate_wordpress_connection (fun _ => .response 300 (.ok []))
        "http://site.test".toList = .ok true ∧
    validate_wordpress_connection (fun _ => .response 200 (.ok []))
        "http://[bad".toList = .error .valueError := by
  constructor
  · rfl
  · rfl

/-- Claim C8 as amended: when the URL parses, the call returns a boolean
and never raises — `false` exactly when the request raises
(`RequestException`: network failure or a 4xx/5xx status), `true`
otherwise; a `ValueError` from URL parsing propagates. -/
theorem claim_C8 (http : PyStr → ReqResult) (url nu : PyStr)
    (hn : normalize_url url = .ok nu) :
    (http (nu ++ typesPath) = .netError →
      validate_wordpress_connection http url = .ok false) ∧
    (∀ s b, http (nu ++ typesPath) = .response s b →
      validate_wordpress_connection http url = .ok (!(400 ≤ s && s < 600))) := by
  unfold validate_wordpress_connection
  rw [hn]
  simp only []
  exact ⟨fun hh => by rw [hh], fun s b hh => by rw [hh]; simp [raisesForStatus]⟩

/-- Witness for the amended C8: a refused connection validates as
`false`. -/
theorem claim_C8_witness :
    normalize_url "http://site.test".toList = .ok "http://site.test".toList ∧
    validate_wordpress_connection (fun _ => .netError) "http://site.test".toList =
      .ok false :=
  ⟨by rfl,
   (claim_C8 (fun _ => .netError) "http://site.test".toList
      "http://site.test".toList (by rfl)).1 rfl⟩

theorem mem_cleanUrl {u : PyStr} {x : Char} (h : x ∈ cleanUrl u) : isTabCrLf x = false := by
  rcases List.mem_filter.1 h with ⟨-, hx⟩
  simpa using hx

theorem mem_schemeSplit_right {url : PyStr} {x : Char} (h : x ∈ (schemeSplit url).2) : x ∈ url := by
  unfold schemeSplit at h
  split at h
  · exact (List.dropWhile_sublist _).subset ((List.tail_sublist _).subset h)
  · exact h

theorem splitFragQuery_path (scheme netloc url3 : PyStr) :
    (splitFragQuery scheme netloc url3).path ⊆ url3 := by
  intro x hx
  simp only [splitFragQuery, pySplit1] at hx
  exact (List.takeWhile_sublist _).subset ((List.takeWhile_sublist _).subset hx)

theorem splitFragQuery_query (scheme netloc url3 : PyStr) :
    (splitFragQuery scheme netloc url3).query ⊆ url3 := by
  intro x hx
  simp only [splitFragQuery, pySplit1] at hx
  exact (List.takeWhile_sublist _).subset
    ((List.dropWhile_sublist _).subset ((List.tail_sublist _).subset hx))

theorem splitFragQuery_fragment (scheme netloc url3 : PyStr) :
    (splitFragQuery scheme netloc url3).fragment ⊆ url3 := by
  intro x hx
  simp only [splitFragQuery, pySplit1] at hx
  exact (List.dropWhile_sublist _).subset ((List.tail_sublist _).subset hx)

theorem netlocPhase_cases (scheme rest : PyStr) :
    netlocPhase scheme rest = .error .valueError ∨
    netlocPhase scheme rest =
      .ok (splitFragQuery scheme (rest.takeWhile (fun c => !isNetlocDelim c))
        (rest.dropWhile (fun c => !isNetlocDelim c))) := by
  unfold netlocPhase
  split
  · exact Or.inl rfl
  · split
    · exact Or.inl rfl
    · exact Or.inr rfl

theorem urlsplitE_ok_clean {u : PyStr} {r : SplitResult} (h : urlsplitE u = .ok r) :
    (∀ c ∈ r.netloc, isTabCrLf c = false) ∧ (∀ c ∈ r.path, isTabCrLf c = false) ∧
    (∀ c ∈ r.query, isTabCrLf c = false) ∧ (∀ c ∈ r.fragment, isTabCrLf c = false) := by
  have base : ∀ x : Char, x ∈ (schemeSplit (cleanUrl u)).2 → isTabCrLf x = false :=
    fun x hx => mem_cleanUrl (mem_schemeSplit_right hx)
  unfold urlsplitE at h
  split at h
  · rcases netlocPhase_cases (schemeSplit (cleanUrl u)).1
        ((schemeSplit (cleanUrl u)).2.drop 2) with hc | hc
    · rw [hc] at h; exact absurd h (by simp)
    · rw [hc] at h
      simp only [Except.ok.injEq] at h
      subst h
      have hrest : ∀ x : Char, x ∈ (schemeSplit (cleanUrl u)).2.drop 2 → isTabCrLf x = false :=
        fun x hx => base x ((List.drop_sublist _ _).subset hx)
      have hurl3 : ∀ x : Char,
          x ∈ ((schemeSplit (cleanUrl u)).2.drop 2).dropWhile (fun c => !isNetlocDelim c) →
          isTabCrLf x = false :=
        fun x hx => hrest x ((List.dropWhile_sublist _).subset hx)
      refine ⟨?_, ?_, ?_, ?_⟩
      · exact fun c hc => hrest c ((List.takeWhile_sublist _).subset hc)
      · exact fun c hc => hurl3 c (splitFragQuery_path _ _ _ hc)
      · exact fun c hc => hurl3 c (splitFragQuery_query _ _ _ hc)
      · exact fun c hc => hurl3 c (splitFragQuery_fragment _ _ _ hc)
  · simp only [Except.ok.injEq] at h
    subst h
    refine ⟨?_, ?_, ?_, ?_⟩
    · intro c hc; simp [splitFragQuery] at hc
    · exact fun c hc => base c (splitFragQuery_path _ _ _ hc)
    · exact fun c hc => base c (splitFragQuery_query _ _ _ hc)
    · exact fun c hc => base c (splitFragQuery_fragment _ _ _ hc)

theorem pySplit1_left_subset (c : Char) (l : PyStr) : (pySplit1 c l).1 ⊆ l :=
  (List.takeWhile_sublist _).subset

theorem pySplit1_right_subset (c : Char) (l : PyStr) : (pySplit1 c l).2 ⊆ l :=
  fun _ hx => (List.dropWhile_sublist _).subset ((List.tail_sublist _).subset hx)

theorem splitParams_left_mem {path : PyStr} {x : Char}
    (h : x ∈ (splitParams path).1) : x ∈ path ∨ x = '/' := by
  unfold splitParams at h
  split at h
  · split at h
    · split at h
      · rcases List.mem_append.1 h with hx | hx
        · left
          have h2 : x ∈ (pySplit1 '/' path.reverse).2 := List.mem_reverse.1 hx
          exact List.mem_reverse.1 (pySplit1_right_subset _ _ h2)
        · rcases List.mem_cons.1 hx with rfl | hx
          · exact Or.inr rfl
          · left
            have h2 : x ∈ (pySplit1 '/' path.reverse).1.reverse :=
              pySplit1_left_subset ';' _ hx
            exact List.mem_reverse.1 (pySplit1_left_subset '/' _ (List.mem_reverse.1 h2))
      · exact Or.inl h
    · exact Or.inl (pySplit1_left_subset ';' _ h)
  · exact Or.inl h

theorem splitParams_right_mem {path : PyStr} {x : Char}
    (h : x ∈ (splitParams path).2) : x ∈ path := by
  unfold splitParams at h
  split at h
  · split at h
    · split at h
      · have h2 : x ∈ (pySplit1 '/' path.reverse).1.reverse :=
          pySplit1_right_subset ';' _ h
        exact List.mem_reverse.1 (pySplit1_left_subset '/' _ (List.mem_reverse.1 h2))
      · simp at h
    · exact pySplit1_right_subset ';' _ h
  · simp at h

theorem urlparseE_ok_clean {u : PyStr} {p : ParseResult} (h : urlparseE u = .ok p) :
    (∀ c ∈ p.netloc, isTabCrLf c = false) ∧ (∀ c ∈ p.path, isTabCrLf c = false) ∧
    (∀ c ∈ p.params, isTabCrLf c = false) ∧ (∀ c ∈ p.query, isTabCrLf c = false) ∧
    (∀ c ∈ p.fragment, isTabCrLf c = false) := by
  unfold urlparseE at h
  cases hs : urlsplitE u with
  | error e => rw [hs] at h; simp [Except.map] at h
  | ok r =>
    rw [hs] at h
    simp only [Except.map, Except.ok.injEq] at h
    subst h
    obtain ⟨hn, hp, hq, hf⟩ := urlsplitE_ok_clean hs
    refine ⟨hn, ?_, ?_, hq, hf⟩
    · intro c hc
      rcases splitParams_left_mem hc with hx | rfl
      · exact hp c hx
      · rfl
    · exact fun c hc => hp c (splitParams_right_mem hc)

theorem urlunsplit_https_shape (netloc pb query frag : PyStr)
    (hn : ∀ c ∈ netloc, isTabCrLf c = false) (hb : ∀ c ∈ pb, isTabCrLf c = false)
    (hq : ∀ c ∈ query, isTabCrLf c = false) (hf : ∀ c ∈ frag, isTabCrLf c = false) :
    ∃ w, urlunsplit ⟨httpsL, netloc, pb, query, frag⟩ = httpsL ++ ':' :: '/' :: '/' :: w ∧
      ∀ c ∈ w, isTabCrLf c = false := by
  have hsuffix : ∀ c ∈ (if query ≠ [] then '?' :: query else []) ++
      (if frag ≠ [] then '#' :: frag else []), isTabCrLf c = false := by
    intro c hc
    rcases List.mem_append.1 hc with hx | hx
    · split at hx
      · rcases List.mem_cons.1 hx with rfl | hx
        · rfl
        · exact hq c hx
      · simp at hx
    · split at hx
      · rcases List.mem_cons.1 hx with rfl | hx
        · rfl
        · exact hf c hx
      · simp at hx
  unfold urlunsplit urlunsplitBody
  rw [if_pos (show httpsL ≠ [] by simp [httpsL])]
  by_cases hcond : netloc ≠ [] ∨ (httpsL ≠ [] ∧ httpsL ∈ usesNetloc ∧ pb.take 2 ≠ ['/', '/'])
  · rw [if_pos hcond]
    refine ⟨(netloc ++ (if pb ≠ [] ∧ pb.head? ≠ some '/' then '/' :: pb else pb)) ++
      ((if query ≠ [] then '?' :: query else []) ++
       (if frag ≠ [] then '#' :: frag else [])), ?_, ?_⟩
    · simp [List.append_assoc]
    · intro c hc
      rcases List.mem_append.1 hc with hx | hx
      · rcases List.mem_append.1 hx with hy | hy
        · exact hn c hy
        · split at hy
          · rcases List.mem_cons.1 hy with rfl | hy
            · rfl
            · exact hb c hy
          · exact hb c hy
      · exact hsuffix c hx
  · rw [if_neg hcond]
    push_neg at hcond
    have h2 : pb.take 2 = ['/', '/'] := by
      have := hcond.2 (by simp [httpsL]) (by decide)
      simpa using this
    have hshape : pb = '/' :: '/' :: pb.drop 2 := by
      rcases pb with _ | ⟨a, _ | ⟨b, t⟩⟩ <;> simp_all
    refine ⟨pb.drop 2 ++ ((if query ≠ [] then '?' :: query else []) ++
      (if frag ≠ [] then '#' :: frag else [])), ?_, ?_⟩
    · conv_lhs => rw [hshape]
      simp [List.append_assoc]
    · intro c hc
      rcases List.mem_append.1 hc with hx | hx
      · exact hb c ((List.drop_sublist _ _).subset hx)
      · exact hsuffix c hx

theorem urlunparse_https_shape (p : ParseResult)
    (hn : ∀ c ∈ p.netloc, isTabCrLf c = false)
    (hp : ∀ c ∈ p.path, isTabCrLf c = false)
    (hpar : ∀ c ∈ p.params, isTabCrLf c = false)
    (hq : ∀ c ∈ p.query, isTabCrLf c = false)
    (hf : ∀ c ∈ p.fragment, isTabCrLf c = false) :
    ∃ w, urlunparse { p with scheme := httpsL } = httpsL ++ ':' :: '/' :: '/' :: w ∧
      ∀ c ∈ w, isTabCrLf c = false := by
  have hbody : ∀ c ∈ (if p.params ≠ [] then p.path ++ ';' :: p.params else p.path),
      isTabCrLf c = false := by
    intro c hc
    split at hc
    · rcases List.mem_append.1 hc with hx | hx
      · exact hp c hx
      · rcases List.mem_cons.1 hx with rfl | hx
        · rfl
        · exact hpar c hx
    · exact hp c hc
  exact urlunsplit_https_shape p.netloc _ p.query p.fragment hn hbody hq hf

theorem urlsplitE_https_reparse (w : PyStr) (hw : ∀ c ∈ w, isTabCrLf c = false) :
    urlsplitE (httpsL ++ ':' :: '/' :: '/' :: w) = .error .valueError ∨
    ∃ r, urlsplitE (httpsL ++ ':' :: '/' :: '/' :: w) = .ok r ∧ r.scheme = httpsL := by
  have hclean : cleanUrl (httpsL ++ ':' :: '/' :: '/' :: w) = httpsL ++ ':' :: '/' :: '/' :: w := by
    unfold cleanUrl
    simp only [httpsL, List.cons_append, List.nil_append]
    rw [List.dropWhile_cons_of_neg (by decide)]
    rw [List.filter_eq_self.2]
    intro a ha
    simp only [List.mem_cons] at ha
    rcases ha with rfl | rfl | rfl | rfl | rfl | rfl | rfl | rfl | ha
    · decide
    · decide
    · decide
    · decide
    · decide
    · decide
    · decide
    · decide
    · simpa using hw a ha
  have htw : (httpsL ++ ':' :: '/' :: '/' :: w).takeWhile (fun a => a != ':') = httpsL := by
    simp only [httpsL, List.cons_append, List.nil_append]
    rw [List.takeWhile_cons_of_pos (by decide), List.takeWhile_cons_of_pos (by decide),
        List.takeWhile_cons_of_pos (by decide), List.takeWhile_cons_of_pos (by decide),
        List.takeWhile_cons_of_pos (by decide), List.takeWhile_cons_of_neg (by decide)]
  have hdw : (httpsL ++ ':' :: '/' :: '/' :: w).dropWhile (fun a => a != ':') =
      ':' :: '/' :: '/' :: w := by
    simp only [httpsL, List.cons_append, List.nil_append]
    rw [List.dropWhile_cons_of_pos (by decide), List.dropWhile_cons_of_pos (by decide),
        List.dropWhile_cons_of_pos (by decide), List.dropWhile_cons_of_pos (by decide),
        List.dropWhile_cons_of_pos (by decide), List.dropWhile_cons_of_neg (by decide)]
  have hscheme : schemeSplit (httpsL ++ ':' :: '/' :: '/' :: w) = (httpsL, '/' :: '/' :: w) := by
    unfold schemeSplit
    rw [if_pos]
    · rw [htw, hdw]
      simp only [List.tail_cons]
      rw [show lowerAscii httpsL = httpsL from by decide]
    · refine ⟨by simp [httpsL], ?_, ?_, ?_⟩
      · rw [htw]; simp [httpsL]
      · simp [httpsL]
        decide
      · rw [htw]; decide
  unfold urlsplitE
  rw [hclean, hscheme]
  simp only [List.take_cons, List.drop_succ_cons, List.drop_zero]
  rw [if_pos (show List.take 2 ('/' :: '/' :: w) = ['/', '/'] from rfl)]
  rcases netlocPhase_cases httpsL w with hc | hc
  · exact Or.inl hc
  · exact Or.inr ⟨_, hc, rfl⟩

theorem normalize_url_reparse {u : PyStr} {p : ParseResult}
    (hp : urlparseE u = .ok p) :
    (∃ q, urlparseE (urlunparse { p with scheme := httpsL }) = .ok q ∧ q.scheme = httpsL) ∨
    urlparseE (urlunparse { p with scheme := httpsL }) = .error .valueError := by
  obtain ⟨hn, hpa, hpar, hq, hf⟩ := urlparseE_ok_clean hp
  obtain ⟨w, hw, hwc⟩ := urlunparse_https_shape p hn hpa hpar hq hf
  rw [hw]
  rcases urlsplitE_https_reparse w hwc with he | ⟨r, hr, hrs⟩
  · right
    unfold urlparseE
    rw [he]
    rfl
  · left
    refine ⟨⟨r.scheme, r.netloc, (splitParams r.path).1, (splitParams r.path).2,
      r.query, r.fragment⟩, ?_, hrs⟩
    unfold urlparseE
    rw [hr]
    rfl

/-- Counterexample to claim C2 as stated: for `"example.com"` the output is
`https:///example.com` — the scheme-less rebuild inserts `//` and an extra
`/` before a relative path, so the remainder after `https://` is not the
input; and for `"a?"` the empty query is dropped as well. -/
theorem claim_C2_counterexample :
    normalize_url "example.com".toList = .ok "https:///example.com".toList ∧
    "https:///example.com".toList ≠ "https://".toList ++ "example.com".toList ∧
    normalize_url "a?".toList = .ok "https:///a".toList ∧
    "https:///a".toList ≠ "https://".toList ++ "a?".toList := by
  refine ⟨by decide, by decide, by decide, by decide⟩

/-- Claim C2 as amended: for every input whose parse succeeds, an input
with a scheme is returned exactly; an input without one is rebuilt as
`https://` followed by the re-assembled parse (`https` is a
netloc-carrying scheme, so `urlunsplit` always inserts `//`) — but the
remainder is the recombination, not the input unchanged. -/
theorem claim_C2 (u : PyStr) (p : ParseResult) (h : urlparseE u = .ok p) :
    (p.scheme ≠ [] → normalize_url u = .ok u) ∧
    (p.scheme = [] →
      ∃ w, normalize_url u = .ok (httpsL ++ ':' :: '/' :: '/' :: w)) := by
  constructor
  · intro hs
    unfold normalize_url
    rw [h]
    simp only []
    rw [if_neg hs]
  · intro hs
    obtain ⟨hn, hpa, hpar, hq, hf⟩ := urlparseE_ok_clean h
    obtain ⟨w, hw, -⟩ := urlunparse_https_shape p hn hpa hpar hq hf
    refine ⟨w, ?_⟩
    unfold normalize_url
    rw [h]
    simp only []
    rw [if_pos hs, hw]

/-- Witness for the amended C2 at `"example.com"`: its parse has an empty
scheme, and the output starts with `https://`. -/
theorem claim_C2_witness :
    urlparseE "example.com".toList =
      .ok ⟨[], [], "example.com".toList, [], [], []⟩ ∧
    (∃ w, normalize_url "example.com".toList =
      .ok (httpsL ++ ':' :: '/' :: '/' :: w)) :=
  ⟨by decide,
   (claim_C2 "example.com".toList ⟨[], [], "example.com".toList, [], [], []⟩
      (by decide)).2 rfl⟩

/-- Counterexample to claim C10 as stated: `normalize_url "////["` returns
`"https://["`, whose re-parse raises `ValueError` (mismatched bracket in
the netloc), so a second application is not the identity on the first
result. -/
theorem claim_C10_counterexample :
    normalize_url "////[".toList = .ok "https://[".toList ∧
    (normalize_url "////[".toList).bind normalize_url = .error PyError.valueError := by
  refine ⟨by decide, by decide⟩

/-- Claim C10 as amended: composing `normalize_url` with itself agrees
with a single application, except that the first output can itself fail to
parse — in which case the second application raises `ValueError` where the
first returned a value. -/
theorem claim_C10 (u : PyStr) :
    (normalize_url u).bind normalize_url = normalize_url u ∨
    ∃ v, normalize_url u = .ok v ∧ normalize_url v = .error .valueError := by
  cases hu : urlparseE u with
  | error e =>
    left
    have h1 : normalize_url u = .error e := by
      unfold normalize_url
      rw [hu]
    rw [h1]
    rfl
  | ok p =>
    by_cases hs : p.scheme = []
    · have h1 : normalize_url u = .ok (urlunparse { p with scheme := httpsL }) := by
        unfold normalize_url
        rw [hu]
        simp only []
        rw [if_pos hs]
      rcases normalize_url_reparse hu with ⟨q, hq2, hqs⟩ | he
      · left
        have h2 : normalize_url (urlunparse { p with scheme := httpsL }) =
            .ok (urlunparse { p with scheme := httpsL }) := by
          unfold normalize_url
          rw [hq2]
          simp only []
          rw [if_neg (by rw [hqs]; simp [httpsL])]
        rw [h1]
        exact h2
      · right
        refine ⟨urlunparse { p with scheme := httpsL }, h1, ?_⟩
        unfold normalize_url
        rw [he]
    · left
      have h1 : normalize_url u = .ok u := by
        unfold normalize_url
        rw [hu]
        simp only []
        rw [if_neg hs]
      rw [h1]
      exact h1

theorem char_valid_range (c : Char) :
    c.toNat < 0xd800 ∨ (0xdfff < c.toNat ∧ c.toNat < 0x110000) := by
  have h := c.valid
  unfold UInt32.isValidChar Nat.isValidChar at h
  exact_mod_cast h

theorem hexVal_hexDig (d : Nat) (h : d < 16) : hexVal (hexDig d) = some d := by
  interval_cases d <;> decide

theorem hex4Val_hex4 (n : Nat) (h : n < 0x10000) :
    hex4Val (hexDig (n / 4096 % 16)) (hexDig (n / 256 % 16))
      (hexDig (n / 16 % 16)) (hexDig (n % 16)) = some n := by
  rw [hex4Val, hexVal_hexDig _ (by omega), hexVal_hexDig _ (by omega),
      hexVal_hexDig _ (by omega), hexVal_hexDig _ (by omega)]
  simp only [Option.some.injEq]
  omega

theorem scanStep_escapeChar (c : Char) (rest : PyStr) :
    scanStep (escapeChar c ++ rest) = .ok (some c, rest) := by
  by_cases hq : c = '"'
  · subst hq; simp [escapeChar, scanStep, scanEsc, escShort, Except.map]
  · by_cases hb : c = '\\'
    · subst hb; simp [escapeChar, scanStep, scanEsc, escShort, Except.map]
    · by_cases h8 : c.toNat = 8
      · have hc : c = Char.ofNat 8 := by rw [← h8, Char.ofNat_toNat]
        subst hc
        simp [escapeChar, scanStep, scanEsc, escShort, Except.map]
      · by_cases h12 : c.toNat = 12
        · have hc : c = Char.ofNat 12 := by rw [← h12, Char.ofNat_toNat]
          subst hc
          simp [escapeChar, scanStep, scanEsc, escShort, Except.map]
        · by_cases h10 : c.toNat = 10
          · have hc : c = '\n' := by
              have h2 : c = Char.ofNat 10 := by rw [← h10, Char.ofNat_toNat]
              simpa using h2
            subst hc
            simp [escapeChar, scanStep, scanEsc, escShort, Except.map]
          · by_cases h13 : c.toNat = 13
            · have hc : c = '\r' := by
                have h2 : c = Char.ofNat 13 := by rw [← h13, Char.ofNat_toNat]
                simpa using h2
              subst hc
              simp [escapeChar, scanStep, scanEsc, escShort, Except.map]
            · by_cases h9 : c.toNat = 9
              · have hc : c = '\t' := by
                  have h2 : c = Char.ofNat 9 := by rw [← h9, Char.ofNat_toNat]
                  simpa using h2
                subst hc
                simp [escapeChar, scanStep, scanEsc, escShort, Except.map]
              · have hval := char_valid_range c
                rw [escapeChar, if_neg hq, if_neg hb, if_neg h8, if_neg h12,
                    if_neg h10, if_neg h13, if_neg h9]
                by_cases hpr : 0x20 ≤ c.toNat ∧ c.toNat ≤ 0x7e
                · rw [if_pos hpr]
                  show scanStep (c :: rest) = _
                  rw [scanStep, if_neg hq, if_neg hb,
                      if_neg (by omega : ¬ c.toNat < 0x20)]
                · rw [if_neg hpr]
                  by_cases hlt : c.toNat < 0x10000
                  · rw [if_pos hlt]
                    simp only [hex4, List.cons_append, List.nil_append]
                    rw [scanStep, if_neg (by decide), if_pos rfl]
                    rw [scanEsc, if_pos rfl]
                    rw [scanEscU, hex4Val_hex4 _ hlt]
                    simp only []
                    rw [if_neg (by omega : ¬ (0xd800 ≤ c.toNat ∧ c.toNat ≤ 0xdbff)),
                        if_neg (by omega : ¬ (0xdc00 ≤ c.toNat ∧ c.toNat ≤ 0xdfff)),
                        Char.ofNat_toNat]
                    rfl
                  · rw [if_neg hlt]
                    simp only [hex4, List.cons_append, List.nil_append]
                    rw [scanStep, if_neg (by decide), if_pos rfl]
                    rw [scanEsc, if_pos rfl]
                    rw [scanEscU,
                        hex4Val_hex4 (0xd800 + (c.toNat - 0x10000) / 1024) (by omega)]
                    simp only []
                    rw [if_pos (by omega : 0xd800 ≤ 0xd800 + (c.toNat - 0x10000) / 1024 ∧
                          0xd800 + (c.toNat - 0x10000) / 1024 ≤ 0xdbff)]
                    rw [scanPair, if_pos ⟨rfl, rfl⟩,
                        hex4Val_hex4 (0xdc00 + (c.toNat - 0x10000) % 1024) (by omega)]
                    simp only []
                    rw [if_pos (by omega : 0xdc00 ≤ 0xdc00 + (c.toNat - 0x10000) % 1024 ∧
                          0xdc00 + (c.toNat - 0x10000) % 1024 ≤ 0xdfff)]
                    have harith : 0x10000 + ((0xd800 + (c.toNat - 0x10000) / 1024 - 0xd800) * 1024 +
                        (0xdc00 + (c.toNat - 0x10000) % 1024 - 0xdc00)) = c.toNat := by
                      omega
                    rw [harith, Char.ofNat_toNat]
                    rfl

theorem escapeChar_length_pos (c : Char) : 0 < (escapeChar c).length := by
  unfold escapeChar
  split_ifs <;> simp [hex4]

theorem pjGo_escString : ∀ (k : PyStr) (fuel : Nat) (t : PyStr),
    ((k.map escapeChar).flatten ++ '"' :: t).length ≤ fuel →
    pjGo fuel ((k.map escapeChar).flatten ++ '"' :: t) = .ok (k, t) := by
  intro k
  induction k with
  | nil =>
    intro fuel t hf
    simp only [List.map_nil, List.flatten_nil, List.nil_append] at hf ⊢
    cases fuel with
    | zero => simp at hf
    | succ f =>
      rw [pjGo, show scanStep ('"' :: t) = .ok (none, t) from by rw [scanStep, if_pos rfl]]
  | cons c k' ih =>
    intro fuel t hf
    simp only [List.map_cons, List.flatten_cons, List.append_assoc] at hf ⊢
    cases fuel with
    | zero =>
      have := escapeChar_length_pos c
      simp only [List.length_append, List.length_cons] at hf
      omega
    | succ f =>
      rw [pjGo, scanStep_escapeChar]
      have hlen : ((k'.map escapeChar).flatten ++ '"' :: t).length ≤ f := by
        have := escapeChar_length_pos c
        simp only [List.length_append] at hf ⊢
        omega
      simp only []
      rw [ih f t hlen]
      rfl

theorem parseJString_dump (k t : PyStr) :
    parseJString ((k.map escapeChar).flatten ++ '"' :: t) = .ok (k, t) :=
  pjGo_escString k _ t le_rfl

theorem skipWs_cons_nws {c : Char} (X : PyStr)
    (h : (c == ' ' || c == '\t' || c == '\n' || c == '\r') = false) :
    skipWs (c :: X) = c :: X := by
  unfold skipWs
  exact List.dropWhile_cons_of_neg (by simp [h])

theorem skipWs_space (X : PyStr) : skipWs (' ' :: X) = skipWs X := by
  unfold skipWs
  exact List.dropWhile_cons_of_pos (by decide)

theorem pmGo_congr (fuel : Nat) (s s' : PyStr) (h : skipWs s = skipWs s') :
    pmGo fuel s = pmGo fuel s' := by
  cases fuel with
  | zero => rfl
  | succ f =>
    rw [pmGo, pmGo, h]

theorem pmGo_members : ∀ (m : List (PyStr × PyStr)) (t : PyStr) (fuel : Nat),
    m ≠ [] →
    (joinSep [',', ' '] (m.map memberDump) ++ '\x7d' :: t).length < fuel →
    pmGo fuel (joinSep [',', ' '] (m.map memberDump) ++ '\x7d' :: t) = .ok (m, t) := by
  intro m
  induction m with
  | nil => intro t fuel hm hf; exact absurd rfl hm
  | cons kv m' ih =>
    intro t fuel hm hf
    cases fuel with
    | zero => simp at hf
    | succ f =>
      cases m' with
      | nil =>
        simp only [List.map_cons, List.map_nil, joinSep, memberDump, jsonDumpString,
          List.cons_append, List.nil_append, List.append_assoc] at hf ⊢
        rw [pmGo]
        rw [skipWs_cons_nws _ (by decide)]
        simp only []
        rw [parseJString_dump]
        simp only []
        rw [skipWs_cons_nws _ (by decide)]
        simp only []
        rw [skipWs_space, skipWs_cons_nws _ (by decide)]
        simp only []
        rw [parseJString_dump]
        simp only []
        rw [skipWs_cons_nws _ (by decide)]
        rfl
      | cons kv2 m'' =>
        have hstep : joinSep [',', ' '] ((kv :: kv2 :: m'').map memberDump) =
            memberDump kv ++ ',' :: ' ' :: joinSep [',', ' '] ((kv2 :: m'').map memberDump) := by
          simp only [List.map_cons, joinSep, List.append_assoc, List.cons_append,
            List.nil_append]
        rw [hstep] at hf ⊢
        generalize hR : joinSep [',', ' '] ((kv2 :: m'').map memberDump) = REST at hf ⊢
        simp only [memberDump, jsonDumpString, List.cons_append, List.nil_append,
          List.append_assoc] at hf ⊢
        rw [pmGo]
        rw [skipWs_cons_nws _ (by decide)]
        simp only []
        rw [parseJString_dump]
        simp only []
        rw [skipWs_cons_nws _ (by decide)]
        simp only []
        rw [skipWs_space, skipWs_cons_nws _ (by decide)]
        simp only []
        rw [parseJString_dump]
        simp only []
        rw [skipWs_cons_nws _ (by decide)]
        simp only []
        rw [pmGo_congr f _ _ (skipWs_space (REST ++ '\x7d' :: t))]
        have hlen : (REST ++ '\x7d' :: t).length < f := by
          simp only [List.length_append, List.length_cons] at hf ⊢
          omega
        rw [← hR] at hlen
        have ihh := ih t f (by simp) hlen
        rw [hR] at ihh
        rw [ihh]
        rfl

theorem foldl_dictInsert_append : ∀ (m acc : List (PyStr × PyStr)),
    (∀ k ∈ m.map Prod.fst, k ∉ acc.map Prod.fst) → (m.map Prod.fst).Nodup →
    m.foldl dictInsert acc = acc ++ m := by
  intro m
  induction m with
  | nil => intro acc _ _; simp
  | cons kv m' ih =>
    intro acc hdis hnd
    obtain ⟨k, v⟩ := kv
    simp only [List.foldl_cons]
    have hins : dictInsert acc (k, v) = acc ++ [(k, v)] := by
      unfold dictInsert
      rw [if_neg (hdis k (by simp))]
    rw [hins]
    rw [ih (acc ++ [(k, v)]) ?_ ?_]
    · simp
    · intro k2 hk2
      simp only [List.map_append, List.map_cons, List.map_nil, List.mem_append,
        List.mem_singleton]
      rintro (hk | rfl)
      · exact hdis k2 (by simp [hk2]) hk
      · simp only [List.map_cons, List.nodup_cons] at hnd
        exact hnd.1 hk2
    · simp only [List.map_cons, List.nodup_cons] at hnd
      exact hnd.2

theorem dictOfPairs_self (m : List (PyStr × PyStr)) (h : (m.map Prod.fst).Nodup) :
    dictOfPairs m = m := by
  unfold dictOfPairs
  simpa using foldl_dictInsert_append m [] (by simp) h

/-- Claim C5: saving a string-to-string mapping and loading it back from
the same path returns the mapping unchanged (dict keys are unique). -/
theorem claim_C5 (fs : FileSystem) (m : List (PyStr × PyStr)) (path : PyStr)
    (h : (m.map Prod.fst).Nodup) :
    load_mapping (save_mapping fs m path) path = .ok m := by
  unfold load_mapping save_mapping
  rw [if_pos rfl]
  cases m with
  | nil => rfl
  | cons kv m' =>
    unfold jsonDumpDict jsonLoadsDict
    simp only [List.cons_append]
    rw [@skipWs_cons_nws '\x7b'
      (joinSep [',', ' '] ((kv :: m').map memberDump) ++ ['\x7d']) (by decide)]
    simp only []
    have hq : (joinSep [',', ' '] ((kv :: m').map memberDump) ++ ['\x7d']).head? = some '"' := by
      cases m' <;> simp [joinSep, memberDump, jsonDumpString]
    have hsw : skipWs (joinSep [',', ' '] ((kv :: m').map memberDump) ++ ['\x7d']) =
        joinSep [',', ' '] ((kv :: m').map memberDump) ++ ['\x7d'] := by
      rcases hR2 : joinSep [',', ' '] ((kv :: m').map memberDump) ++ ['\x7d'] with _ | ⟨c, X⟩
      · rfl
      · rw [hR2] at hq
        simp only [List.head?_cons, Option.some.injEq] at hq
        subst hq
        exact skipWs_cons_nws _ (by decide)
    rw [hsw]
    split
    · next r2 heq =>
      rw [heq] at hq
      simp at hq
    · next heq =>
      have hpm : parseMembers (joinSep [',', ' '] ((kv :: m').map memberDump) ++ ['\x7d']) =
          .ok (kv :: m', []) := by
        unfold parseMembers
        exact pmGo_members (kv :: m') [] _ (by simp) (by omega)
      rw [hpm]
      simp only []
      rw [show skipWs [] = [] from rfl, if_pos rfl, dictOfPairs_self _ h]

/-- Witness for C5 at a concrete two-entry mapping over the empty file
system. -/
theorem claim_C5_witness :
    ((([("title".toList, "name".toList), ("content".toList, "bio".toList)] :
        List (PyStr × PyStr)).map Prod.fst).Nodup) ∧
    load_mapping
      (save_mapping (fun _ => none)
        [("title".toList, "name".toList), ("content".toList, "bio".toList)]
        "mapping.json".toList)
      "mapping.json".toList =
      .ok [("title".toList, "name".toList), ("content".toList, "bio".toList)] :=
  ⟨by decide,
   claim_C5 (fun _ => none)
     [("title".toList, "name".toList), ("content".toList, "bio".toList)]
     "mapping.json".toList (by decide)⟩
